import Mathlib

/-!
Verification development for the mailmind email-digest service.

Each definition is a shallow embedding of a function of the repository,
translated from the Python source file named in its doc comment.
External collaborators (the md5 hash, the regex engine, the fnmatch glob
engine, the LLM HTTP client, the translation service) are passed in as
explicit function parameters, so every theorem quantifies over their
behaviour.
-/

namespace MailMind

/-- A user id (Python int, always positive in the repo). -/
abbrev UserId := Nat

/-! ## Concurrency gate
Embedding of the admission/release discipline shared by
`EmailSchedulerManager._safe_process_user_emails`
(src/services/scheduler_manager.py, lines 233-285) and
`process_user_emails` (src/app.py, lines 108-265).
The Python `set` of in-flight users is modelled as a duplicate-free list,
so that "at most one pipeline per user" is a provable statement rather
than a consequence of the container type. -/

/-- One observable event at the gate: a trigger firing for a user, or a
pipeline for a user reaching its `finally` block. -/
inductive GateEvent where
  | fire (u : UserId)
  | finish (u : UserId)
deriving DecidableEq

/-- Admission check of `_safe_process_user_emails` / `process_user_emails`:
under the lock, skip when the in-flight set is full or the user is already
in flight, otherwise add the user.  Returns the new in-flight list and
whether the firing was admitted. -/
def try_acquire (maxConcurrent : Nat) (processing : List UserId) (u : UserId) :
    List UserId × Bool :=
  if maxConcurrent ≤ processing.length then (processing, false)
  else if u ∈ processing then (processing, false)
  else (u :: processing, true)

/-- The `finally` block: `current_processing.discard(user_id)` — the user is
removed from the in-flight set on every exit path. -/
def release_slot (processing : List UserId) (u : UserId) : List UserId :=
  processing.filter (fun v => v ≠ u)

/-- One gate transition. -/
def gate_step (maxConcurrent : Nat) (processing : List UserId) :
    GateEvent → List UserId
  | .fire u => (try_acquire maxConcurrent processing u).1
  | .finish u => release_slot processing u

/-- The in-flight set after a sequence of firings and completions, starting
from the empty set the scheduler is constructed with. -/
def gate_run (maxConcurrent : Nat) (events : List GateEvent) : List UserId :=
  events.foldl (gate_step maxConcurrent) []

/-- The gate invariant: no user appears twice, and the in-flight set never
exceeds the cap. -/
def gate_inv (maxConcurrent : Nat) (processing : List UserId) : Prop :=
  processing.Nodup ∧ processing.length ≤ maxConcurrent

theorem try_acquire_fst (maxConcurrent : Nat) (l : List UserId) (u : UserId) :
    (try_acquire maxConcurrent l u).1 =
      if maxConcurrent ≤ l.length ∨ u ∈ l then l else u :: l := by
  unfold try_acquire
  by_cases h1 : maxConcurrent ≤ l.length
  · simp [h1]
  · by_cases h2 : u ∈ l <;> simp [h1, h2]

theorem gate_step_inv (maxConcurrent : Nat) (l : List UserId)
    (e : GateEvent) (h : gate_inv maxConcurrent l) :
    gate_inv maxConcurrent (gate_step maxConcurrent l e) := by
  obtain ⟨hnd, hlen⟩ := h
  cases e with
  | fire u =>
    simp only [gate_step, try_acquire_fst]
    by_cases hfull : maxConcurrent ≤ l.length ∨ u ∈ l
    · rw [if_pos hfull]; exact ⟨hnd, hlen⟩
    · rw [if_neg hfull]
      push_neg at hfull
      obtain ⟨hlt, hmem⟩ := hfull
      refine ⟨List.nodup_cons.2 ⟨hmem, hnd⟩, ?_⟩
      simpa [List.length_cons] using Nat.succ_le_of_lt hlt
  | finish u =>
    refine ⟨List.Nodup.filter _ hnd, le_trans ?_ hlen⟩
    exact List.length_filter_le _ l

theorem gate_run_inv (maxConcurrent : Nat) (events : List GateEvent) :
    gate_inv maxConcurrent (gate_run maxConcurrent events) := by
  have h : ∀ (es : List GateEvent) (l : List UserId),
      gate_inv maxConcurrent l →
      gate_inv maxConcurrent (es.foldl (gate_step maxConcurrent) l) := by
    intro es
    induction es with
    | nil => intro l hl; simpa using hl
    | cons e es ih =>
      intro l hl
      exact ih _ (gate_step_inv maxConcurrent l e hl)
  exact h events [] ⟨List.nodup_nil, by simp⟩

/-- C1. Concurrency gate: along every sequence of firings and completions
the in-flight set stays duplicate-free (at most one pipeline per user) and
never exceeds `max_concurrent_users`; a firing is admitted exactly when the
set has a free slot and does not already hold the user, a rejected firing
leaves the state unchanged (it is skipped, not queued), and the release
performed on every exit path removes the user. -/
theorem gate_concurrency_invariant (maxConcurrent : Nat)
    (events : List GateEvent) :
    ((gate_run maxConcurrent events).Nodup ∧
      (gate_run maxConcurrent events).length ≤ maxConcurrent) ∧
    (∀ (l : List UserId) (u : UserId),
      (try_acquire maxConcurrent l u).2 = true ↔
        l.length < maxConcurrent ∧ u ∉ l) ∧
    (∀ (l : List UserId) (u : UserId),
      (try_acquire maxConcurrent l u).2 = false →
        (try_acquire maxConcurrent l u).1 = l) ∧
    (∀ (l : List UserId) (u : UserId), u ∉ release_slot l u) := by
  refine ⟨gate_run_inv maxConcurrent events, ?_, ?_, ?_⟩
  · intro l u
    unfold try_acquire
    by_cases h1 : maxConcurrent ≤ l.length
    · simp [h1, Nat.not_lt.2 h1]
    · by_cases h2 : u ∈ l <;> simp [h1, h2, Nat.lt_of_not_le h1]
  · intro l u
    unfold try_acquire
    by_cases h1 : maxConcurrent ≤ l.length
    · simp [h1]
    · by_cases h2 : u ∈ l <;> simp [h1, h2]
  · intro l u
    simp [release_slot]

/-- Witness for C1 at a concrete trace: users 1,2,3 admitted under cap 3,
the firing for user 4 rejected and state left unchanged, and release
removing user 2. -/
theorem gate_concurrency_invariant_witness :
    (try_acquire 3 [3, 2, 1] 4).1 = [3, 2, 1] ∧
    (2 : UserId) ∉ release_slot [3, 2, 1] 2 ∧
    (gate_run 3 [.fire 1, .fire 2, .fire 3, .fire 4]).length ≤ 3 := by
  refine ⟨?_, ?_, (gate_concurrency_invariant 3
    [.fire 1, .fire 2, .fire 3, .fire 4]).1.2⟩
  · exact (gate_concurrency_invariant 3 []).2.2.1 [3, 2, 1] 4 (by decide)
  · exact (gate_concurrency_invariant 3 []).2.2.2 [3, 2, 1] 2

/-! ## Pipeline exception path
Embedding of the outer `try/except/finally` of `process_user_emails`
(src/app.py, lines 108-265).  The pipeline body (fetch, dedupe, summarize,
persist, digest) is abstracted as a state transformer that also reports
whether an exception escaped it; the generic `except Exception` handler in
the source only logs, and the `finally` block discards the user from
`current_processing_users` and returns (no re-invocation of the body). -/

/-- A row of the `system_notifications` table as written by
`Database.save_notification`. -/
structure Notification where
  nuser : UserId
  ntitle : String
  nmessage : String
  ntype : String
deriving DecidableEq

/-- The process-wide state touched by `process_user_emails`: the in-flight
user set and the notifications written so far. -/
structure AppState where
  processing : List UserId
  notifications : List Notification
deriving DecidableEq

/-- Whether the pipeline body returned normally or raised. -/
inductive PipelineOutcome where
  | ok
  | exc
deriving DecidableEq

/-- Skeleton of `process_user_emails` (src/app.py lines 108-265): gate
admission under the lock, then the body, then `except Exception as e:`
which only calls `logger.error`, then `finally:` which always discards the
user.  The body is a parameter returning the state it reached and whether
it raised; the handler adds nothing to the state on the exception path. -/
def process_user_emails (maxConcurrent : Nat) (st : AppState) (u : UserId)
    (body : AppState → AppState × PipelineOutcome) : AppState :=
  if maxConcurrent ≤ st.processing.length then st
  else if u ∈ st.processing then st
  else
    let entered : AppState := { st with processing := u :: st.processing }
    let r := body entered
    { r.1 with processing := release_slot r.1.processing u }

/-- C7 counterexample: an admitted run whose body raises immediately ends
with an empty notification list — no `error`-typed notification is written
by the `except` handler, contradicting the claim that one is. -/
theorem pipeline_exc_no_error_notification :
    (process_user_emails 3 ⟨[], []⟩ 1
        (fun s => (s, PipelineOutcome.exc))).notifications = [] ∧
    (process_user_emails 3 ⟨[], []⟩ 1
        (fun s => (s, PipelineOutcome.exc))).processing = [] := by
  constructor <;> rfl

/-- C7 amended: when a firing is admitted and the body ends (normally or by
raising), the `except` handler appends no notification — the final
notification list is exactly the one the body produced — and the `finally`
block always removes the user from the in-flight set; the function then
returns, so the run is not re-entered. -/
theorem pipeline_exc_releases_slot (maxConcurrent : Nat) (st : AppState)
    (u : UserId) (body : AppState → AppState × PipelineOutcome)
    (hlen : st.processing.length < maxConcurrent)
    (hmem : u ∉ st.processing) :
    (process_user_emails maxConcurrent st u body).notifications =
      (body { st with processing := u :: st.processing }).1.notifications ∧
    u ∉ (process_user_emails maxConcurrent st u body).processing := by
  unfold process_user_emails
  rw [if_neg (Nat.not_le.2 hlen), if_neg hmem]
  exact ⟨rfl, by simp [release_slot]⟩

/-- Witness for C7 amended: a concrete raising body that wrote one warning
notification; the final state keeps exactly that notification and an empty
in-flight set. -/
theorem pipeline_exc_releases_slot_witness :
    (process_user_emails 3 ⟨[], []⟩ 7
        (fun s => ({ s with notifications := [⟨7, "t", "m", "warning"⟩] },
          PipelineOutcome.exc))).notifications = [⟨7, "t", "m", "warning"⟩] ∧
    (7 : UserId) ∉ (process_user_emails 3 ⟨[], []⟩ 7
        (fun s => ({ s with notifications := [⟨7, "t", "m", "warning"⟩] },
          PipelineOutcome.exc))).processing :=
  pipeline_exc_releases_slot 3 ⟨[], []⟩ 7 _ (by decide) (by decide)

/-! ## Dedupe engine
Embedding of `Database.generate_content_hash` (src/models/database.py,
lines 255-286) and `Database.deduplicate_emails` (lines 288-377), per-user
branch (`user_id` truthy).  The md5 digest is an external library call and
is passed in as a function parameter; the historical `email_id` set and the
windowed `content_hash` set are the results of the two SQL queries and are
passed in as lists.  A missing / `None` `email_id` is modelled as `""`,
matching Python truthiness in `if email_id and (...)`. -/

/-- Python `needle in haystack` on strings. -/
def pyIn (needle haystack : String) : Bool :=
  decide (needle.data <:+: haystack.data)

/-- Python slicing `s[:n]` — the first `n` characters (code points). -/
def pySlice (s : String) (n : Nat) : String :=
  String.mk (s.data.take n)

/-- Python `s.lower()` (character-wise lowercasing). -/
def pyLower (s : String) : String :=
  String.mk (s.data.map Char.toLower)

/-- Python `s.strip()` — drop leading and trailing whitespace. -/
def pyStrip (s : String) : String :=
  String.mk (((s.data.dropWhile Char.isWhitespace).reverse.dropWhile
    Char.isWhitespace).reverse)

/-- Python `s.startswith(p)`. -/
def pyStartsWith (s p : String) : Bool :=
  decide (p.data <+: s.data)

/-- Python `s.endswith(p)`. -/
def pyEndsWith (s p : String) : Bool :=
  decide (p.data <:+ s.data)

/-- A candidate email as the dedupe filter sees it. -/
structure EmailRec where
  email_id : String
  subject : String
  sender : String
  date_str : String
  recipients : List String
  body : String
  content_hash : String
deriving DecidableEq

/-- The fingerprint of `generate_content_hash`:
`md5(subject | sender | date_str | recipients ',' joined | body[:2000])`. -/
def generate_content_hash (md5 : String → String) (e : EmailRec) : String :=
  md5 (e.subject ++ "|" ++ e.sender ++ "|" ++ e.date_str ++ "|" ++
    String.intercalate "," e.recipients ++ "|" ++ pySlice e.body 2000)

/-- Accumulator of the candidate walk: survivors so far and the in-batch
`current_email_ids` / `current_hashes` sets. -/
structure DedupeAcc where
  unique : List EmailRec
  cur_ids : List String
  cur_hashes : List String

/-- One iteration of the candidate loop in `deduplicate_emails`: recompute
and stamp the content hash, drop on an `email_id` hit (only when the id is
truthy), else drop on a `content_hash` hit, else emit and extend the
in-batch sets (the id only when truthy). -/
def dedupe_step (md5 : String → String)
    (existing_ids existing_hashes : List String)
    (acc : DedupeAcc) (e : EmailRec) : DedupeAcc :=
  let h := generate_content_hash md5 e
  if e.email_id ≠ "" ∧
      (e.email_id ∈ existing_ids ∨ e.email_id ∈ acc.cur_ids) then acc
  else if h ∈ existing_hashes ∨ h ∈ acc.cur_hashes then acc
  else
    { unique := acc.unique ++ [{ e with content_hash := h }],
      cur_ids := acc.cur_ids ++ (if e.email_id ≠ "" then [e.email_id] else []),
      cur_hashes := acc.cur_hashes ++ [h] }

/-- `deduplicate_emails(emails, user_id)` for a fixed user: walk the batch
in input order against the historical id set and the windowed hash set. -/
def deduplicate_emails (md5 : String → String)
    (existing_ids existing_hashes : List String)
    (emails : List EmailRec) : List EmailRec :=
  (emails.foldl (dedupe_step md5 existing_ids existing_hashes)
    ⟨[], [], []⟩).unique

/-- Survivors must differ in both keys. -/
def DistinctKeys (a b : EmailRec) : Prop :=
  a.email_id ≠ b.email_id ∧ a.content_hash ≠ b.content_hash

/-- Stamping the recomputed hash onto a candidate, as the loop mutates
`email['content_hash']`. -/
def stamp_hash (md5 : String → String) (e : EmailRec) : EmailRec :=
  { e with content_hash := generate_content_hash md5 e }

/-- Invariant of the candidate walk: every survivor's keys are in the
in-batch sets, survivors are pairwise distinct in both keys, and no
survivor's key hits the historical / windowed sets. -/
def dedupe_inv (existing_ids existing_hashes : List String)
    (acc : DedupeAcc) : Prop :=
  (∀ x ∈ acc.unique,
    x.email_id ∈ acc.cur_ids ∧ x.content_hash ∈ acc.cur_hashes) ∧
  acc.unique.Pairwise DistinctKeys ∧
  (∀ x ∈ acc.unique,
    x.email_id ∉ existing_ids ∧ x.content_hash ∉ existing_hashes)

theorem dedupe_step_inv (md5 : String → String)
    (existing_ids existing_hashes : List String) (acc : DedupeAcc)
    (e : EmailRec) (hid : e.email_id ≠ "")
    (h : dedupe_inv existing_ids existing_hashes acc) :
    dedupe_inv existing_ids existing_hashes
      (dedupe_step md5 existing_ids existing_hashes acc e) := by
  obtain ⟨hA, hB, hC⟩ := h
  unfold dedupe_step
  by_cases h1 : e.email_id ≠ "" ∧
      (e.email_id ∈ existing_ids ∨ e.email_id ∈ acc.cur_ids)
  · rw [if_pos h1]; exact ⟨hA, hB, hC⟩
  · rw [if_neg h1]
    by_cases h2 : generate_content_hash md5 e ∈ existing_hashes ∨
        generate_content_hash md5 e ∈ acc.cur_hashes
    · rw [if_pos h2]; exact ⟨hA, hB, hC⟩
    · rw [if_neg h2]
      push_neg at h1 h2
      obtain ⟨hide, hidc⟩ := h1 hid
      obtain ⟨hhe, hhc⟩ := h2
      rw [if_pos hid]
      refine ⟨?_, ?_, ?_⟩
      · intro x hx
        rcases List.mem_append.1 hx with hx | hx
        · obtain ⟨ha, hb⟩ := hA x hx
          exact ⟨List.mem_append.2 (Or.inl ha), List.mem_append.2 (Or.inl hb)⟩
        · rw [List.mem_singleton.1 hx]
          exact ⟨List.mem_append.2 (Or.inr (List.mem_singleton.2 rfl)),
            List.mem_append.2 (Or.inr (List.mem_singleton.2 rfl))⟩
      · refine List.pairwise_append.2 ⟨hB, List.pairwise_singleton _ _, ?_⟩
        intro x hx y hy
        rw [List.mem_singleton.1 hy]
        obtain ⟨ha, hb⟩ := hA x hx
        simp only [DistinctKeys]
        exact ⟨fun hc => hidc (hc ▸ ha), fun hc => hhc (hc ▸ hb)⟩
      · intro x hx
        rcases List.mem_append.1 hx with hx | hx
        · exact hC x hx
        · rw [List.mem_singleton.1 hx]
          exact ⟨hide, hhe⟩

theorem dedupe_foldl_inv (md5 : String → String)
    (existing_ids existing_hashes : List String) :
    ∀ (emails : List EmailRec) (acc : DedupeAcc),
      (∀ e ∈ emails, e.email_id ≠ "") →
      dedupe_inv existing_ids existing_hashes acc →
      dedupe_inv existing_ids existing_hashes
        (emails.foldl (dedupe_step md5 existing_ids existing_hashes) acc) := by
  intro emails
  induction emails with
  | nil => intro acc _ hacc; simpa using hacc
  | cons e es ih =>
    intro acc hids hacc
    rw [List.foldl_cons]
    exact ih _ (fun x hx => hids x (List.mem_cons_of_mem e hx))
      (dedupe_step_inv md5 existing_ids existing_hashes acc e
        (hids e (List.mem_cons_self e es)) hacc)

theorem dedupe_step_unique_cases (md5 : String → String)
    (existing_ids existing_hashes : List String) (acc : DedupeAcc)
    (e : EmailRec) :
    (dedupe_step md5 existing_ids existing_hashes acc e).unique =
        acc.unique ∨
    (dedupe_step md5 existing_ids existing_hashes acc e).unique =
        acc.unique ++ [stamp_hash md5 e] := by
  unfold dedupe_step stamp_hash
  by_cases h1 : e.email_id ≠ "" ∧
      (e.email_id ∈ existing_ids ∨ e.email_id ∈ acc.cur_ids)
  · rw [if_pos h1]; exact Or.inl rfl
  · rw [if_neg h1]
    by_cases h2 : generate_content_hash md5 e ∈ existing_hashes ∨
        generate_content_hash md5 e ∈ acc.cur_hashes
    · rw [if_pos h2]; exact Or.inl rfl
    · rw [if_neg h2]; exact Or.inr rfl

theorem dedupe_foldl_growth (md5 : String → String)
    (existing_ids existing_hashes : List String) :
    ∀ (emails : List EmailRec) (acc : DedupeAcc),
      ∃ t, (emails.foldl (dedupe_step md5 existing_ids existing_hashes)
          acc).unique = acc.unique ++ t ∧
        List.Sublist t (emails.map (stamp_hash md5)) := by
  intro emails
  induction emails with
  | nil => intro acc; exact ⟨[], by simp, List.nil_sublist _⟩
  | cons e es ih =>
    intro acc
    rw [List.foldl_cons]
    obtain ⟨t, ht, hsub⟩ := ih (dedupe_step md5 existing_ids existing_hashes acc e)
    rcases dedupe_step_unique_cases md5 existing_ids existing_hashes acc e
      with hcase | hcase
    · exact ⟨t, by rw [ht, hcase], by
        simpa using hsub.trans (List.sublist_cons_self _ _)⟩
    · refine ⟨stamp_hash md5 e :: t, ?_, ?_⟩
      · rw [ht, hcase]; simp
      · rw [List.map_cons]
        exact List.cons_sublist_cons.2 hsub

set_option maxRecDepth 8192 in
/-- C2 counterexample: two candidates with a falsy (empty) `email_id` and
different content both survive the walk (the `email_id` test is skipped for
them), so two distinct survivors share `email_id` `""` — the claimed
pairwise `email_id` distinctness fails.  The md5 parameter is instantiated
with the identity, which is injective like a digest on these two inputs. -/
theorem dedupe_empty_id_counterexample :
    (deduplicate_emails (fun s => s) [] []
        [⟨"", "a", "", "", [], "", ""⟩, ⟨"", "b", "", "", [], "", ""⟩]).length
        = 2 ∧
    (deduplicate_emails (fun s => s) [] []
        [⟨"", "a", "", "", [], "", ""⟩,
         ⟨"", "b", "", "", [], "", ""⟩]).map EmailRec.email_id = ["", ""] ∧
    (deduplicate_emails (fun s => s) [] []
        [⟨"", "a", "", "", [], "", ""⟩,
         ⟨"", "b", "", "", [], "", ""⟩]).map EmailRec.subject = ["a", "b"] := by
  refine ⟨?_, ?_, ?_⟩ <;> rfl

/-- C2 amended: provided every candidate in the batch carries a non-empty
`email_id`, the walk emits survivors in input order (a sublist of the
hash-stamped batch), no survivor's `email_id` is in the historical set nor
its `content_hash` in the windowed set, and any two distinct survivors
differ in both `email_id` and `content_hash`.  Candidates whose `email_id`
is empty skip the `email_id` test entirely, which is what the
counterexample exploits. -/
theorem deduplicate_emails_distinct_keys (md5 : String → String)
    (existing_ids existing_hashes : List String) (emails : List EmailRec)
    (hids : ∀ e ∈ emails, e.email_id ≠ "") :
    (deduplicate_emails md5 existing_ids existing_hashes
        emails).Pairwise DistinctKeys ∧
    (∀ x ∈ deduplicate_emails md5 existing_ids existing_hashes emails,
      x.email_id ∉ existing_ids ∧ x.content_hash ∉ existing_hashes) ∧
    List.Sublist (deduplicate_emails md5 existing_ids existing_hashes emails)
      (emails.map (stamp_hash md5)) := by
  have hstart : dedupe_inv existing_ids existing_hashes ⟨[], [], []⟩ := by
    unfold dedupe_inv
    exact ⟨fun x hx => absurd hx (List.not_mem_nil x), List.Pairwise.nil,
      fun x hx => absurd hx (List.not_mem_nil x)⟩
  have hinv := dedupe_foldl_inv md5 existing_ids existing_hashes emails
    ⟨[], [], []⟩ hids hstart
  obtain ⟨-, hB, hC⟩ := hinv
  obtain ⟨t, ht, hsub⟩ := dedupe_foldl_growth md5 existing_ids
    existing_hashes emails ⟨[], [], []⟩
  refine ⟨hB, hC, ?_⟩
  unfold deduplicate_emails
  rw [ht]
  simpa using hsub

/-- Witness for C2 amended at a concrete batch: survivor keys avoid the
historical sets and the two survivors differ in both keys. -/
theorem deduplicate_emails_distinct_keys_witness :
    (deduplicate_emails (fun s => s) ["old:1"] ["h0"]
        [⟨"a@x:1", "s1", "", "", [], "", ""⟩,
         ⟨"a@x:2", "s2", "", "", [], "", ""⟩]).Pairwise DistinctKeys :=
  (deduplicate_emails_distinct_keys (fun s => s) ["old:1"] ["h0"]
    [⟨"a@x:1", "s1", "", "", [], "", ""⟩,
     ⟨"a@x:2", "s2", "", "", [], "", ""⟩] (by decide)).1

/-! ## save_email and the emails table
Embedding of `Database.save_email` (src/models/database.py, lines 408-468)
against the schema of `init_database` (lines 61-92): the `emails` table
declares `email_id TEXT UNIQUE` and `content_hash TEXT UNIQUE` — globally
unique, not per user — and `save_email` runs `INSERT OR REPLACE`.  SQLite's
`INSERT OR REPLACE` deletes every existing row that violates any unique
constraint with the incoming row, then inserts; `NULL` values never
conflict.  Only the columns relevant to the conflict behaviour are kept. -/

/-- A stored row of the `emails` table. -/
structure EmailRow where
  row_user : UserId
  row_email_id : Option String
  row_content_hash : Option String
  row_subject : String
deriving DecidableEq

/-- SQLite conflict on one of the two global UNIQUE columns (`NULL`s do not
conflict). -/
def unique_conflict (incoming old : EmailRow) : Bool :=
  (match incoming.row_email_id, old.row_email_id with
    | some x, some y => decide (x = y)
    | _, _ => false) ||
  (match incoming.row_content_hash, old.row_content_hash with
    | some x, some y => decide (x = y)
    | _, _ => false)

/-- `save_email`: `INSERT OR REPLACE INTO emails ...` — drop every row the
incoming record conflicts with, then append the record. -/
def save_email (table : List EmailRow) (rec : EmailRow) : List EmailRow :=
  table.filter (fun r => ! unique_conflict rec r) ++ [rec]

/-- C3 failing input: user 2 owns a row with `email_id = "a@x.com:5"`; user
1 then saves a record with the same `email_id` (two tenants fetching the
same shared mailbox produce identical `"<address>:<uid>"` ids).  Because
the UNIQUE constraints are global rather than per `(user_id, email_id)`,
the `INSERT OR REPLACE` deletes user 2's row: the save for user 1 does not
leave user 2's stored emails unchanged. -/
theorem save_email_cross_tenant_overwrite :
    (save_email [⟨2, some "a@x.com:5", some "h2", "user2 mail"⟩]
        ⟨1, some "a@x.com:5", some "h1", "user1 mail"⟩) =
      [⟨1, some "a@x.com:5", some "h1", "user1 mail"⟩] ∧
    (save_email [⟨2, some "a@x.com:5", some "h2", "user2 mail"⟩]
        ⟨1, some "a@x.com:5", some "h1", "user1 mail"⟩).filter
        (fun r => decide (r.row_user = 2)) = [] := by
  constructor <;> rfl

/-! ## Rule matcher
Embedding of `RuleMatcher.match_sender`, `RuleMatcher.match_keywords`,
`RuleMatcher.calculate_rule_score` and `RuleMatcher.match_rule`
(src/services/rule_matcher.py, lines 18-225).  The `re.search` call and the
`fnmatch.fnmatch` call are external engines passed as parameters returning
`Option Bool`; `none` models the call raising (e.g. `re.error`), which the
source's `try/except` maps to `False`.  A `NULL`/empty pattern is `""`; a
`NULL`/`"[]"` keyword column is `[]`. -/

/-- `match_sender(sender, pattern, match_type)`: empty inputs fail fast,
both sides are lowercased and stripped, then the branch on `match_type`
(unknown types fall back to substring containment). -/
def match_sender (regexSearch fnmatchFn : String → String → Option Bool)
    (sender pattern match_type : String) : Bool :=
  if sender = "" ∨ pattern = "" then false
  else
    let s := pyStrip (pyLower sender)
    let p := pyStrip (pyLower pattern)
    if match_type = "exact" then decide (s = p)
    else if match_type = "contains" then pyIn p s
    else if match_type = "domain" then
      (if pyStartsWith p "@" then pyEndsWith s p else pyIn p s)
    else if match_type = "wildcard" then
      (match fnmatchFn s p with | some b => b | none => false)
    else if match_type = "regex" then
      (match regexSearch p s with | some b => b | none => false)
    else pyIn p s

/-- C9. `match_sender` returns `false` whenever the sender or the pattern
is empty, for every match type (both-empty exact included), and an internal
matching-engine error (the oracle returning `none`, the embedding of the
`except` branch) also yields `false` on the regex and wildcard branches. -/
theorem match_sender_empty_false
    (regexSearch fnmatchFn : String → String → Option Bool)
    (sender pattern match_type : String) :
    ((sender = "" ∨ pattern = "") →
      match_sender regexSearch fnmatchFn sender pattern match_type = false) ∧
    match_sender (fun _ _ => Option.none) fnmatchFn
      sender pattern "regex" = false ∧
    match_sender regexSearch (fun _ _ => Option.none)
      sender pattern "wildcard" = false := by
  refine ⟨fun h => by unfold match_sender; rw [if_pos h], ?_, ?_⟩
  · unfold match_sender
    by_cases h : sender = "" ∨ pattern = ""
    · rw [if_pos h]
    · rw [if_neg h]; rfl
  · unfold match_sender
    by_cases h : sender = "" ∨ pattern = ""
    · rw [if_pos h]
    · rw [if_neg h]; rfl

/-- Witness for C9: empty sender under exact matching, an engine error on
the regex branch, and a both-empty exact match all return `false`. -/
theorem match_sender_empty_false_witness :
    match_sender (fun _ _ => some true) (fun _ _ => some true)
      "" "a@b.com" "exact" = false ∧
    match_sender (fun _ _ => some true) (fun _ _ => some true)
      "" "" "exact" = false ∧
    match_sender (fun _ _ => Option.none) (fun _ _ => some true)
      "x@y.com" "(" "regex" = false :=
  ⟨(match_sender_empty_false (fun _ _ => some true) (fun _ _ => some true)
      "" "a@b.com" "exact").1 (Or.inl rfl),
   (match_sender_empty_false (fun _ _ => some true) (fun _ _ => some true)
      "" "" "exact").1 (Or.inl rfl),
   (match_sender_empty_false (fun _ _ => some true) (fun _ _ => some true)
      "x@y.com" "(" "regex").2.1⟩

/-- `match_keywords(text, keywords, logic)`: no keywords means match; empty
text fails; falsy keywords are filtered out (an all-falsy list also means
match); `AND` requires all, anything else means `OR`. -/
def match_keywords (text : String) (keywords : List String)
    (logic : String) : Bool :=
  if keywords = [] then true
  else if text = "" then false
  else
    let tl := pyStrip (pyLower text)
    let ms := (keywords.filter (fun kw => decide (kw ≠ ""))).map
      (fun kw => pyIn (pyStrip (pyLower kw)) tl)
    if ms = [] then true
    else if logic = "AND" then ms.all id
    else ms.any id

/-- A row of the `classification_rules` table as `match_rule` and
`calculate_rule_score` read it. -/
structure Rule where
  id : Nat
  sender_pattern : String
  sender_match_type : String
  subject_keywords : List String
  subject_logic : String
  body_keywords : List String
  target_category : String
  target_importance : Int
  priority : Int
  is_active : Bool
  match_count : Nat
  last_matched_at : Option String
deriving DecidableEq

/-- The three fields of an email that rule matching and the keyword
classifier read. -/
structure EmailMsg where
  subject : String
  sender : String
  body : String
deriving DecidableEq

/-- `match_rule(rule, email)`: inactive rules never match; each configured
dimension must match (sender first, short-circuiting), and a rule with no
configured dimension does not match. -/
def match_rule (regexSearch fnmatchFn : String → String → Option Bool)
    (rule : Rule) (email : EmailMsg) : Bool :=
  if rule.is_active = false then false
  else if rule.sender_pattern ≠ "" ∧
      match_sender regexSearch fnmatchFn email.sender rule.sender_pattern
        rule.sender_match_type = false then false
  else if rule.subject_keywords ≠ [] ∧
      match_keywords email.subject rule.subject_keywords
        rule.subject_logic = false then false
  else if rule.body_keywords ≠ [] ∧
      match_keywords email.body rule.body_keywords "OR" = false then false
  else decide (rule.sender_pattern ≠ "" ∨ rule.subject_keywords ≠ [] ∨
    rule.body_keywords ≠ [])

/-- `calculate_rule_score(rule, email)`: base priority, +10 for exact
sender matching, +5 per configured dimension, +5 for domain matching. -/
def calculate_rule_score (rule : Rule) : Int :=
  rule.priority
    + (if rule.sender_match_type = "exact" then 10 else 0)
    + 5 * ((if rule.sender_pattern ≠ "" then 1 else 0)
        + (if rule.subject_keywords ≠ [] then 1 else 0)
        + (if rule.body_keywords ≠ [] then 1 else 0))
    + (if rule.sender_match_type = "domain" then 5 else 0)

/-- The best-of-the-matched selection of
`ClassificationService.find_matching_rule`
(src/services/classification_service.py, lines 223-245): keep the earliest
rule attaining the maximal score, as Python's stable descending sort
followed by taking the head does. -/
def pick_best : Option Rule → Rule → Option Rule
  | none, r => some r
  | some b, r =>
      if calculate_rule_score b < calculate_rule_score r then some r
      else some b

/-- `find_matching_rule(email, user_id)` over the user's already-loaded
active rules. -/
def find_matching_rule (regexSearch fnmatchFn : String → String → Option Bool)
    (rules : List Rule) (email : EmailMsg) : Option Rule :=
  (rules.filter (fun r => match_rule regexSearch fnmatchFn r email)).foldl
    pick_best none

/-- `ClassificationService._update_rule_stats(rule_id)`: bump `match_count`
and stamp `last_matched_at` on the rule with that id. -/
def update_rule_stats (rules : List Rule) (rule_id : Nat)
    (now : String) : List Rule :=
  rules.map (fun r =>
    if r.id = rule_id then
      { r with match_count := r.match_count + 1, last_matched_at := some now }
    else r)

/-- Importance keywords of
`ClassificationService._classify_with_keywords` (lines 301-332). -/
def high_importance_keywords : List String :=
  ["urgent", "紧急", "重要", "important", "急", "立即", "asap",
   "截止", "deadline", "会议", "meeting", "面试", "interview"]

def medium_importance_keywords : List String :=
  ["通知", "notice", "公告", "announcement", "更新", "update",
   "邀请", "invitation", "确认", "confirmation"]

/-- The 11 category keyword sets probed in insertion order
(src/services/classification_service.py, lines 44-56). -/
def category_keywords : List (String × List String) :=
  [("work", ["工作", "work", "项目", "project", "任务", "task", "会议",
      "meeting", "报告", "report"]),
   ("finance", ["账单", "bill", "付款", "payment", "银行", "bank", "财务",
      "finance", "发票", "invoice"]),
   ("social", ["朋友", "friend", "社交", "social", "聚会", "party", "生日",
      "birthday"]),
   ("shopping", ["订单", "order", "购买", "purchase", "商品", "product",
      "快递", "delivery", "物流", "shipping"]),
   ("news", ["新闻", "news", "资讯", "information", "更新", "update",
      "订阅", "newsletter"]),
   ("education", ["课程", "course", "培训", "training", "学习", "study",
      "教育", "education", "考试", "exam"]),
   ("travel", ["机票", "flight", "酒店", "hotel", "旅行", "travel", "行程",
      "itinerary", "签证", "visa"]),
   ("health", ["医院", "hospital", "体检", "checkup", "健康", "health",
      "医疗", "medical", "药品", "medicine"]),
   ("system", ["验证码", "code", "密码", "password", "账号", "account",
      "注册", "register", "通知", "notification"]),
   ("advertising", ["广告", "ad", "推广", "promotion", "营销", "marketing",
      "促销", "优惠", "discount", "折扣", "sale", "特价", "限时", "秒杀",
      "活动", "campaign", "offer", "deal"]),
   ("spam", ["中奖", "prize", "恭喜", "congratulations", "免费领取",
      "free gift", "点击领取", "click here", "立即查看", "view now", "紧急",
      "urgent", "重要通知", "账号异常", "验证身份", "verify account",
      "suspended", "unusual activity"])]

/-- `_classify_with_keywords(email)`: derive an importance from the
keyword tiers, then return the first category whose keyword set hits the
combined `subject + " " + sender + " " + body[:500]` scratch string. -/
def classify_with_keywords (email : EmailMsg) : String × Int :=
  let text := pyLower email.subject ++ " " ++ pyLower email.sender ++ " " ++
    pyLower (pySlice email.body 500)
  let importance : Int :=
    if high_importance_keywords.any (fun kw => pyIn kw text) then 3
    else if medium_importance_keywords.any (fun kw => pyIn kw text) then 2
    else 1
  match category_keywords.find? (fun ck => ck.2.any (fun kw => pyIn kw text))
    with
  | some ck => (ck.1, importance)
  | none => ("general", importance)

/-- `ClassificationService.classify_email(email, user_id)` (lines 250-284),
four layers: custom rules (with `_update_rule_stats` on a hit), the skipped
AI layer, the keyword fallback, and the default.  `rules` is the result of
`get_user_rules(user_id, active_only=True)`; the function returns
`(category, importance, method)` together with the rule table after the
statistics update. -/
def classify_email (regexSearch fnmatchFn : String → String → Option Bool)
    (now : String) (rules : List Rule) (email : EmailMsg) :
    (String × Int × String) × List Rule :=
  match find_matching_rule regexSearch fnmatchFn rules email with
  | some rule =>
      ((rule.target_category, rule.target_importance, "rule"),
        update_rule_stats rules rule.id now)
  | none =>
      let ki := classify_with_keywords email
      if ki.1 ≠ "general" then ((ki.1, ki.2, "keyword"), rules)
      else (("general", 1, "default"), rules)

theorem match_rule_active (regexSearch fnmatchFn : String → String → Option Bool)
    (rule : Rule) (email : EmailMsg)
    (h : match_rule regexSearch fnmatchFn rule email = true) :
    rule.is_active = true := by
  by_cases ha : rule.is_active = false
  · rw [match_rule, if_pos ha] at h
    exact absurd h (by decide)
  · simpa using ha

theorem pick_best_some (acc : Option Rule) (a : Rule) :
    ∃ c, pick_best acc a = some c ∧
      calculate_rule_score a ≤ calculate_rule_score c ∧
      (∀ b, acc = some b →
        calculate_rule_score b ≤ calculate_rule_score c) := by
  cases acc with
  | none =>
    exact ⟨a, rfl, le_refl _, fun b hb => Option.noConfusion hb⟩
  | some b =>
    by_cases hlt : calculate_rule_score b < calculate_rule_score a
    · refine ⟨a, by simp [pick_best, hlt], le_refl _, ?_⟩
      intro b' hb'
      injection hb' with hb'
      rw [← hb']
      exact le_of_lt hlt
    · refine ⟨b, by simp [pick_best, hlt], le_of_not_lt hlt, ?_⟩
      intro b' hb'
      injection hb' with hb'
      rw [← hb']

theorem pick_foldl_mem :
    ∀ (l : List Rule) (acc : Option Rule) (r : Rule),
      l.foldl pick_best acc = some r → acc = some r ∨ r ∈ l := by
  intro l
  induction l with
  | nil => intro acc r h; exact Or.inl (by simpa using h)
  | cons a l ih =>
    intro acc r h
    rw [List.foldl_cons] at h
    rcases ih (pick_best acc a) r h with hc | hc
    · cases acc with
      | none =>
        injection hc with hc
        exact Or.inr (hc ▸ List.mem_cons_self a l)
      | some b =>
        simp only [pick_best] at hc
        by_cases hlt : calculate_rule_score b < calculate_rule_score a
        · rw [if_pos hlt] at hc
          injection hc with hc
          exact Or.inr (hc ▸ List.mem_cons_self a l)
        · rw [if_neg hlt] at hc
          exact Or.inl hc
    · exact Or.inr (List.mem_cons_of_mem a hc)

theorem pick_foldl_ge :
    ∀ (l : List Rule) (acc : Option Rule) (r : Rule),
      l.foldl pick_best acc = some r →
      (∀ q ∈ l, calculate_rule_score q ≤ calculate_rule_score r) ∧
      (∀ b, acc = some b →
        calculate_rule_score b ≤ calculate_rule_score r) := by
  intro l
  induction l with
  | nil =>
    intro acc r h
    refine ⟨fun q hq => absurd hq (List.not_mem_nil q), fun b hb => ?_⟩
    rw [hb] at h
    injection (by simpa using h : some b = some r) with h
    rw [h]
  | cons a l ih =>
    intro acc r h
    rw [List.foldl_cons] at h
    obtain ⟨h1, h2⟩ := ih (pick_best acc a) r h
    obtain ⟨c, hc, hac, haccc⟩ := pick_best_some acc a
    refine ⟨?_, ?_⟩
    · intro q hq
      rcases List.mem_cons.1 hq with hq | hq
      · exact hq ▸ le_trans hac (h2 c hc)
      · exact h1 q hq
    · intro b hb
      exact le_trans (haccc b hb) (h2 c hc)

theorem find_matching_rule_some
    (regexSearch fnmatchFn : String → String → Option Bool)
    (rules : List Rule) (email : EmailMsg) (r : Rule)
    (h : find_matching_rule regexSearch fnmatchFn rules email = some r) :
    r ∈ rules ∧ match_rule regexSearch fnmatchFn r email = true ∧
      ∀ q ∈ rules, match_rule regexSearch fnmatchFn q email = true →
        calculate_rule_score q ≤ calculate_rule_score r := by
  unfold find_matching_rule at h
  have hmem : r ∈ rules.filter
      (fun q => match_rule regexSearch fnmatchFn q email) := by
    rcases pick_foldl_mem _ none r h with hc | hc
    · exact Option.noConfusion hc
    · exact hc
  obtain ⟨hr, hmatch⟩ := List.mem_filter.1 hmem
  refine ⟨hr, hmatch, ?_⟩
  intro q hq hqm
  exact (pick_foldl_ge _ none r h).1 q (List.mem_filter.2 ⟨hq, hqm⟩)

/-- C4. Rule-layer classification: whenever `classify_email` returns the
method `"rule"`, some rule of the user's active rule list matches the
email, the returned category and importance are that rule's targets, no
other matching rule scores strictly higher, and the returned rule table is
the input table with that rule's `match_count` bumped and
`last_matched_at` stamped. -/
theorem classify_email_rule_layer
    (regexSearch fnmatchFn : String → String → Option Bool)
    (now : String) (rules : List Rule) (email : EmailMsg)
    (category : String) (importance : Int) (rules2 : List Rule)
    (h : classify_email regexSearch fnmatchFn now rules email =
      ((category, importance, "rule"), rules2)) :
    ∃ r, r ∈ rules ∧ r.is_active = true ∧
      match_rule regexSearch fnmatchFn r email = true ∧
      category = r.target_category ∧ importance = r.target_importance ∧
      (∀ q ∈ rules, match_rule regexSearch fnmatchFn q email = true →
        calculate_rule_score q ≤ calculate_rule_score r) ∧
      rules2 = update_rule_stats rules r.id now ∧
      { r with match_count := r.match_count + 1,
               last_matched_at := some now } ∈ rules2 := by
  unfold classify_email at h
  cases hfind : find_matching_rule regexSearch fnmatchFn rules email with
  | none =>
    rw [hfind] at h
    dsimp only [] at h
    by_cases hk : (classify_with_keywords email).1 ≠ "general"
    · rw [if_pos hk] at h
      simp only [Prod.mk.injEq] at h
      exact absurd h.1.2.2 (by decide)
    · rw [if_neg hk] at h
      simp only [Prod.mk.injEq] at h
      exact absurd h.1.2.2 (by decide)
  | some r =>
    rw [hfind] at h
    obtain ⟨hr, hmatch, hmax⟩ :=
      find_matching_rule_some regexSearch fnmatchFn rules email r hfind
    simp only [Prod.mk.injEq] at h
    obtain ⟨⟨hcat, himp, -⟩, hrules⟩ := h
    refine ⟨r, hr, match_rule_active regexSearch fnmatchFn r email hmatch,
      hmatch, hcat.symm, himp.symm, hmax, hrules.symm, ?_⟩
    rw [← hrules]
    unfold update_rule_stats
    refine List.mem_map.2 ⟨r, hr, ?_⟩
    simp

/-- A concrete rule for the C4 witness: domain-match on
`@pay.example.com`, targeting `finance` importance 3, priority 10. -/
def ruleW : Rule :=
  ⟨11, "@pay.example.com", "domain", [], "OR", [], "finance", 3, 10,
    true, 0, none⟩

/-- A concrete email for the C4 witness. -/
def emailW : EmailMsg := ⟨"Invoice", "billing@pay.example.com", "please pay"⟩

/-- Witness for C4: one concrete active rule with a configured sender
pattern matches `billing@pay.example.com`, so `classify_email` returns its
targets with method `"rule"` and bumps its statistics. -/
theorem classify_email_rule_layer_witness :
    ∃ r, r ∈ [ruleW] ∧ r.is_active = true ∧
      match_rule (fun _ _ => some false) (fun _ _ => some false) r emailW
        = true ∧
      "finance" = r.target_category ∧ (3 : Int) = r.target_importance ∧
      (∀ q ∈ [ruleW],
        match_rule (fun _ _ => some false) (fun _ _ => some false) q emailW
          = true →
        calculate_rule_score q ≤ calculate_rule_score r) ∧
      update_rule_stats [ruleW] 11 "2025-01-01T00:00:00" =
        update_rule_stats [ruleW] r.id "2025-01-01T00:00:00" ∧
      { r with match_count := r.match_count + 1,
               last_matched_at := some "2025-01-01T00:00:00" } ∈
        update_rule_stats [ruleW] 11 "2025-01-01T00:00:00" :=
  classify_email_rule_layer (fun _ _ => some false) (fun _ _ => some false)
    "2025-01-01T00:00:00" [ruleW] emailW "finance" 3
    (update_rule_stats [ruleW] 11 "2025-01-01T00:00:00") (by decide)

/-! ## Digest assembler
Embedding of `DigestGenerator._categorize_emails` (lines 20-44),
`DigestGenerator._calculate_digest_stats` (category tally part, lines
100-210), `DigestGenerator.generate_digest_content` (lines 225-277) and
`DigestGenerator.create_digest` (src/services/digest_generator.py).
The AI digest summary, the title and the per-email date formatting are
irrelevant to the counting claims and are not part of the structure; the
per-email formatting is kept as a map so that the emitted list has one
entry per bucket element, as in the source. -/

/-- A saved, enriched email as the digest assembler reads it. -/
structure SavedEmail where
  subject : String
  sender : String
  body : String
  ai_summary : String
  importance : Int
  category : String
deriving DecidableEq

/-- The fixed bucket keys of `_categorize_emails`, in dict insertion
order. -/
def digest_category_keys : List String :=
  ["important", "work", "finance", "social", "shopping", "news", "general"]

/-- The bucket an email's `category` field lands in: itself when it is one
of the dict keys, else `general`. -/
def digest_cat_key (e : SavedEmail) : String :=
  if e.category ∈ digest_category_keys then e.category else "general"

/-- What one email appends to the bucket of key `k` during the loop of
`_categorize_emails`: itself under `important` when `importance >= 3`
(first append), and itself under its category bucket. -/
def digest_contrib (e : SavedEmail) (k : String) : List SavedEmail :=
  (if 3 ≤ e.importance ∧ k = "important" then [e] else []) ++
  (if digest_cat_key e = k then [e] else [])

/-- The bucket of key `k` after the whole loop. -/
def digest_bucket (emails : List SavedEmail) (k : String) : List SavedEmail :=
  emails.flatMap (fun e => digest_contrib e k)

/-- `_categorize_emails(emails)`: the buckets in key order with the empty
ones removed. -/
def categorize_emails (emails : List SavedEmail) :
    List (String × List SavedEmail) :=
  (digest_category_keys.map (fun k => (k, digest_bucket emails k))).filter
    (fun p => decide (p.2 ≠ []))

/-- The compact per-email view built by `_format_email_for_digest`
(subject, sender, summary, importance, category; the date/time formatting
is dropped). -/
structure FormattedEmail where
  fsubject : String
  fsender : String
  fsummary : String
  fimportance : Int
  fcategory : String
deriving DecidableEq

def format_email_for_digest (e : SavedEmail) : FormattedEmail :=
  ⟨e.subject, e.sender, e.ai_summary, e.importance, e.category⟩

/-- Python dict counting: bump the tally of key `k`, appending it on first
sight (insertion order preserved). -/
def tally_bump : List (String × Nat) → String → List (String × Nat)
  | [], k => [(k, 1)]
  | (a, n) :: rest, k =>
      if a = k then (a, n + 1) :: rest else (a, n) :: tally_bump rest k

/-- `stats['categories']` of `_calculate_digest_stats`: the tally of the
raw `category` field over the batch. -/
def stats_categories (emails : List SavedEmail) : List (String × Nat) :=
  (emails.map (fun e => e.category)).foldl tally_bump []

/-- The parts of the `content` dict built by `generate_digest_content`
that the consistency claim mentions. -/
structure DigestContent where
  email_count : Nat
  categories : List (String × List FormattedEmail)
  cat_stats : List (String × Nat)
  emails : List FormattedEmail
deriving DecidableEq

/-- `generate_digest_content(emails)`: the empty branch returns zeros; the
main branch groups, formats each bucket, concatenates the formatted
buckets into `all_formatted_emails`, and tallies the stats. -/
def generate_digest_content (emails : List SavedEmail) : DigestContent :=
  if emails = [] then ⟨0, [], [], []⟩
  else
    let fcats := (categorize_emails emails).map
      (fun p => (p.1, p.2.map format_email_for_digest))
    ⟨emails.length, fcats, stats_categories emails,
      fcats.foldl (fun acc p => acc ++ p.2) []⟩

/-- The digest record of `create_digest`: `email_count` is the input batch
length, `content` the generated content. -/
structure Digest where
  email_count : Nat
  content : DigestContent
deriving DecidableEq

def create_digest (emails : List SavedEmail) : Digest :=
  ⟨emails.length, generate_digest_content emails⟩

theorem sum_vals_tally_bump (k : String) :
    ∀ acc : List (String × Nat),
      ((tally_bump acc k).map Prod.snd).sum = (acc.map Prod.snd).sum + 1 := by
  intro acc
  induction acc with
  | nil => rfl
  | cons p rest ih =>
    obtain ⟨a, n⟩ := p
    by_cases ha : a = k
    · simp [tally_bump, ha]
      omega
    · simp [tally_bump, ha, ih]
      omega

theorem stats_categories_sum_aux (cats : List String) :
    ∀ acc : List (String × Nat),
      ((cats.foldl tally_bump acc).map Prod.snd).sum =
        (acc.map Prod.snd).sum + cats.length := by
  induction cats with
  | nil => intro acc; simp
  | cons c cs ih =>
    intro acc
    rw [List.foldl_cons, ih (tally_bump acc c), sum_vals_tally_bump c acc]
    simp
    omega

theorem sum_map_add_aux {α : Type} (f g : α → Nat) :
    ∀ l : List α,
      (l.map (fun k => f k + g k)).sum = (l.map f).sum + (l.map g).sum := by
  intro l
  induction l with
  | nil => rfl
  | cons a l ih => simp [ih]; omega

theorem sum_indicator_zero (x : String) :
    ∀ keys : List String, x ∉ keys →
      (keys.map (fun k => if x = k then (1 : Nat) else 0)).sum = 0 := by
  intro keys
  induction keys with
  | nil => intro _; rfl
  | cons a ks ih =>
    intro hx
    have hxa : x ≠ a := fun hc => hx (hc ▸ List.mem_cons_self a ks)
    simp [hxa, ih (fun hc => hx (List.mem_cons_of_mem a hc))]

theorem sum_indicator_one (x : String) :
    ∀ keys : List String, x ∈ keys → keys.Nodup →
      (keys.map (fun k => if x = k then (1 : Nat) else 0)).sum = 1 := by
  intro keys
  induction keys with
  | nil => intro hx _; exact absurd hx (List.not_mem_nil x)
  | cons a ks ih =>
    intro hx hnd
    rcases List.mem_cons.1 hx with hxa | hxk
    · simp [hxa, sum_indicator_zero a ks (List.nodup_cons.1 hnd).1]
    · have hxa : x ≠ a := by
        intro hc
        exact (List.nodup_cons.1 hnd).1 (hc ▸ hxk)
      simp [hxa, ih hxk (List.nodup_cons.1 hnd).2]

theorem digest_cat_key_mem (e : SavedEmail) :
    digest_cat_key e ∈ digest_category_keys := by
  unfold digest_cat_key
  by_cases h : e.category ∈ digest_category_keys
  · rwa [if_pos h]
  · rw [if_neg h]; decide

theorem digest_contrib_sum (e : SavedEmail) :
    (digest_category_keys.map
      (fun k => (digest_contrib e k).length)).sum =
      (if 3 ≤ e.importance then 1 else 0) + 1 := by
  have hlen : ∀ k, (digest_contrib e k).length =
      (if 3 ≤ e.importance ∧ k = "important" then (1 : Nat) else 0) +
      (if digest_cat_key e = k then (1 : Nat) else 0) := by
    intro k
    unfold digest_contrib
    rw [List.length_append]
    by_cases h1 : 3 ≤ e.importance ∧ k = "important"
    · rw [if_pos h1, if_pos h1]
      by_cases h2 : digest_cat_key e = k
      · rw [if_pos h2, if_pos h2]; rfl
      · rw [if_neg h2, if_neg h2]; rfl
    · rw [if_neg h1, if_neg h1]
      by_cases h2 : digest_cat_key e = k
      · rw [if_pos h2, if_pos h2]; rfl
      · rw [if_neg h2, if_neg h2]; rfl
  calc (digest_category_keys.map (fun k => (digest_contrib e k).length)).sum
      = (digest_category_keys.map (fun k =>
          (if 3 ≤ e.importance ∧ k = "important" then (1 : Nat) else 0) +
          (if digest_cat_key e = k then (1 : Nat) else 0))).sum := by
        rw [List.map_congr_left (fun k _ => hlen k)]
    _ = (digest_category_keys.map (fun k =>
          if 3 ≤ e.importance ∧ k = "important" then (1 : Nat) else 0)).sum +
        (digest_category_keys.map (fun k =>
          if digest_cat_key e = k then (1 : Nat) else 0)).sum :=
        sum_map_add_aux _ _ _
    _ = (if 3 ≤ e.importance then 1 else 0) + 1 := by
        rw [sum_indicator_one (digest_cat_key e) digest_category_keys
          (digest_cat_key_mem e) (by decide)]
        by_cases himp : 3 ≤ e.importance
        · rw [if_pos himp]
          have hf : (digest_category_keys.map (fun k =>
              if 3 ≤ e.importance ∧ k = "important" then (1 : Nat) else 0)) =
              (digest_category_keys.map (fun k =>
                if k = "important" then (1 : Nat) else 0)) :=
            List.map_congr_left (fun k _ => by
              by_cases hk : k = "important"
              · rw [if_pos ⟨himp, hk⟩, if_pos hk]
              · rw [if_neg (fun hc => hk hc.2), if_neg hk])
          rw [hf]
          decide
        · rw [if_neg himp]
          have hf : (digest_category_keys.map (fun k =>
              if 3 ≤ e.importance ∧ k = "important" then (1 : Nat) else 0)) =
              (digest_category_keys.map (fun _ => (0 : Nat))) :=
            List.map_congr_left (fun k _ => by
              rw [if_neg (fun hc => himp hc.1)])
          rw [hf]
          decide

theorem digest_buckets_total :
    ∀ es : List SavedEmail,
      (digest_category_keys.map (fun k => (digest_bucket es k).length)).sum =
        es.length + (es.filter (fun e => decide (3 ≤ e.importance))).length := by
  intro es
  induction es with
  | nil => decide
  | cons e es ih =>
    have hcons : ∀ k, (digest_bucket (e :: es) k).length =
        (digest_contrib e k).length + (digest_bucket es k).length := by
      intro k
      simp [digest_bucket]
    rw [List.map_congr_left (fun k _ => hcons k), sum_map_add_aux,
      digest_contrib_sum e, ih]
    by_cases himp : 3 ≤ e.importance <;> simp [himp] <;> omega

theorem foldl_append_length {β : Type} :
    ∀ (l : List (String × List β)) (acc : List β),
      (l.foldl (fun acc p => acc ++ p.2) acc).length =
        acc.length + (l.map (fun p => p.2.length)).sum := by
  intro l
  induction l with
  | nil => intro acc; simp
  | cons p l ih =>
    intro acc
    rw [List.foldl_cons, ih]
    simp
    omega

theorem filter_nonempty_length_sum {β : Type} [DecidableEq β] :
    ∀ l : List (String × List β),
      ((l.filter (fun p => decide (p.2 ≠ []))).map
        (fun p => p.2.length)).sum = (l.map (fun p => p.2.length)).sum := by
  intro l
  induction l with
  | nil => rfl
  | cons p l ih =>
    rw [List.filter_cons]
    by_cases hp : p.2 = []
    · rw [if_neg (by simp [hp])]
      rw [ih, List.map_cons, List.sum_cons, hp]
      simp
    · rw [if_pos (by simp [hp])]
      rw [List.map_cons, List.sum_cons, List.map_cons, List.sum_cons, ih]

/-- C5 counterexample: a single saved email with `importance = 3` lands in
the `important` bucket and in its `work` category bucket, so
`content.emails` (the concatenation of the formatted buckets) has two
entries while `email_count` is 1 — `d.email_count == |d.content.emails|`
fails. -/
theorem digest_important_double_count :
    (create_digest [⟨"s", "x", "b", "m", 3, "work"⟩]).email_count = 1 ∧
    (create_digest [⟨"s", "x", "b", "m", 3, "work"⟩]).content.emails.length
      = 2 := by
  constructor <;> rfl

/-- C5 amended: for every non-empty saved batch, `email_count` (on the
digest and on its content) is the batch length, the `stats.categories`
counts sum to `email_count`, and `content.emails` has `email_count` plus
one extra entry per email of importance >= 3 (those are listed twice, once
under `important` and once under their category bucket). -/
theorem create_digest_counts (emails : List SavedEmail)
    (h : emails ≠ []) :
    (create_digest emails).email_count = emails.length ∧
    (create_digest emails).content.email_count = emails.length ∧
    (((create_digest emails).content.cat_stats).map Prod.snd).sum =
      (create_digest emails).email_count ∧
    (create_digest emails).content.emails.length =
      emails.length +
        (emails.filter (fun e => decide (3 ≤ e.importance))).length := by
  have hccount : (create_digest emails).content.email_count =
      emails.length := by
    unfold create_digest generate_digest_content
    rw [if_neg h]
  have hstats : (create_digest emails).content.cat_stats =
      stats_categories emails := by
    unfold create_digest generate_digest_content
    rw [if_neg h]
  have hemails : (create_digest emails).content.emails =
      ((categorize_emails emails).map
        (fun p => (p.1, p.2.map format_email_for_digest))).foldl
        (fun acc p => acc ++ p.2) [] := by
    unfold create_digest generate_digest_content
    rw [if_neg h]
  refine ⟨rfl, hccount, ?_, ?_⟩
  · rw [hstats]
    show ((stats_categories emails).map Prod.snd).sum = emails.length
    unfold stats_categories
    rw [stats_categories_sum_aux]
    simp
  · rw [hemails, foldl_append_length, List.map_map]
    have hcomp1 : ((fun p : String × List FormattedEmail => p.2.length) ∘
        (fun p : String × List SavedEmail =>
          (p.1, p.2.map format_email_for_digest))) =
        (fun p : String × List SavedEmail => p.2.length) :=
      funext (fun p => by simp)
    rw [hcomp1]
    unfold categorize_emails
    rw [filter_nonempty_length_sum, List.map_map]
    have hcomp2 : ((fun p : String × List SavedEmail => p.2.length) ∘
        (fun k => (k, digest_bucket emails k))) =
        fun k => (digest_bucket emails k).length := rfl
    rw [hcomp2, digest_buckets_total emails]
    simp

/-- Witness for C5 amended: a two-email batch, one of importance 3, has
`email_count = 2`, category counts summing to 2, and three entries in
`content.emails`. -/
theorem create_digest_counts_witness :
    (create_digest [⟨"s1", "x", "b", "m", 3, "work"⟩,
        ⟨"s2", "y", "b", "m", 1, "news"⟩]).email_count = 2 ∧
    (create_digest [⟨"s1", "x", "b", "m", 3, "work"⟩,
        ⟨"s2", "y", "b", "m", 1, "news"⟩]).content.email_count = 2 ∧
    (((create_digest [⟨"s1", "x", "b", "m", 3, "work"⟩,
        ⟨"s2", "y", "b", "m", 1, "news"⟩]).content.cat_stats).map
          Prod.snd).sum =
      (create_digest [⟨"s1", "x", "b", "m", 3, "work"⟩,
        ⟨"s2", "y", "b", "m", 1, "news"⟩]).email_count ∧
    (create_digest [⟨"s1", "x", "b", "m", 3, "work"⟩,
        ⟨"s2", "y", "b", "m", 1, "news"⟩]).content.emails.length =
      2 + ([⟨"s1", "x", "b", "m", 3, "work"⟩,
        (⟨"s2", "y", "b", "m", 1, "news"⟩ : SavedEmail)].filter
          (fun e => decide (3 ≤ e.importance))).length :=
  create_digest_counts [⟨"s1", "x", "b", "m", 3, "work"⟩,
    ⟨"s2", "y", "b", "m", 1, "news"⟩] (by decide)

/-! ## Attachment extension policy
Embedding of the per-part filename/extension/size checks of
`EmailManager._extract_attachments` (src/services/email_manager.py, lines
356-483) and `EmailManager._is_safe_filename` (lines 484-511).  The MIME
decoding of the filename is upstream of these checks, so the decision
function takes the decoded filename and the payload size.  `os.path` is
posix here, so only `/` separates paths in `splitext`. -/

/-- Python `s.upper()`. -/
def pyUpper (s : String) : String :=
  String.mk (s.data.map Char.toUpper)

/-- The basename characters after the last `/`, as `posixpath.splitext`
scopes its dot search. -/
def after_last_slash (cs : List Char) : List Char :=
  cs.foldl (fun acc c => if c = '/' then [] else acc ++ [c]) []

/-- The extension part of `os.path.splitext(filename)[1]`: from the last
dot of the basename, provided some earlier basename character is not a dot
(so `.bashrc` and `..exe` have no extension). -/
def py_splitext_ext (s : String) : String :=
  let base := after_last_slash s.data
  let revBase := base.reverse
  let afterDot := revBase.takeWhile (fun c => c ≠ '.')
  if afterDot.length = revBase.length then ""
  else
    let pre := (revBase.drop (afterDot.length + 1)).reverse
    if pre.any (fun c => c ≠ '.') then String.mk ('.' :: afterDot.reverse)
    else ""

/-- `os.path.splitext(filename)[0]`: the filename minus its extension. -/
def py_splitext_root (s : String) : String :=
  String.mk (s.data.take (s.data.length - (py_splitext_ext s).data.length))

/-- The `dangerous_extensions` blacklist literal of
`_extract_attachments`. -/
def dangerous_extensions : List String :=
  [".exe", ".bat", ".cmd", ".com", ".pif", ".scr", ".vbs", ".jar",
   ".msi", ".dll", ".sys", ".drv", ".ocx", ".cpl", ".inf", ".reg", ".ps1"]

/-- The `allowed_extensions` whitelist literal of `_extract_attachments`. -/
def allowed_extensions : List String :=
  [".pdf", ".doc", ".docx", ".xls", ".xlsx", ".ppt", ".pptx",
   ".txt", ".rtf", ".csv", ".xml", ".json", ".md", ".html", ".htm",
   ".jpg", ".jpeg", ".png", ".gif", ".bmp", ".tiff", ".webp", ".svg",
   ".ico",
   ".mp3", ".wav", ".mp4", ".avi", ".mov", ".wmv", ".flv", ".mkv",
   ".m4a", ".aac",
   ".zip", ".rar", ".7z", ".tar", ".gz", ".bz2", ".xz",
   ".ics", ".vcf", ".vcard",
   ".py", ".js", ".css", ".sql", ".log", ".conf", ".ini", ".cfg",
   ".eml", ".msg", ".mbox"]

/-- The Windows reserved stems of `_is_safe_filename`. -/
def windows_reserved_names : List String :=
  ["CON", "PRN", "AUX", "NUL",
   "COM1", "COM2", "COM3", "COM4", "COM5", "COM6", "COM7", "COM8", "COM9",
   "LPT1", "LPT2", "LPT3", "LPT4", "LPT5", "LPT6", "LPT7", "LPT8", "LPT9"]

/-- `_is_safe_filename(filename)`: non-empty, at most 255 characters, none
of the dangerous characters, no `..`, no leading slash or backslash, and
the uppercased stem is not a reserved Windows device name. -/
def is_safe_filename (filename : String) : Bool :=
  if filename = "" ∨ 255 < filename.data.length then false
  else if ['<', '>', ':', '\"', '|', '?', '*', '\x00'].any
      (fun c => filename.data.contains c) then false
  else if pyIn ".." filename || pyStartsWith filename "/" ||
      pyStartsWith filename "\\" then false
  else if pyUpper (py_splitext_root filename) ∈ windows_reserved_names then
    false
  else true

/-- The newline stripping and trim that `_extract_attachments` applies to
the decoded filename before the checks. -/
def clean_filename (s : String) : String :=
  pyStrip (String.mk (s.data.filter (fun c => c ≠ '\n' ∧ c ≠ '\r')))

/-- The keep/drop decision of `_extract_attachments` for one part carrying
a (decoded) filename and a payload of `size` bytes: safe filename, not a
blacklisted extension, extension empty or whitelisted, non-empty payload,
at most 50 MiB. -/
def attachment_decision (raw_filename : String) (size : Nat) : Bool :=
  is_safe_filename (clean_filename raw_filename)
    && ! decide (pyLower (py_splitext_ext (clean_filename raw_filename)) ∈
          dangerous_extensions)
    && (decide (pyLower (py_splitext_ext (clean_filename raw_filename)) = "")
        || decide (pyLower (py_splitext_ext (clean_filename raw_filename)) ∈
          allowed_extensions))
    && ! decide (size = 0)
    && decide (size ≤ 50 * 1024 * 1024)

/-- The dangerous set exactly as the claim states it (with `js`, `scf` and
`lnk`); written from the spec for comparison with the source's sets. -/
def spec_claimed_dangerous : List String :=
  [".exe", ".bat", ".cmd", ".com", ".pif", ".scr", ".vbs", ".js", ".jar",
   ".msi", ".dll", ".sys", ".scf", ".lnk", ".reg", ".ps1"]

/-- C6 counterexample: `script.js` has extension `.js`, which the claim
puts in the dangerous (rejected) set, yet the fetcher keeps it (the
source's blacklist has no `.js` and its whitelist explicitly allows it);
and `README`, with an empty extension, is also kept (the whitelist check
is guarded by `if file_extension`, skipping empty extensions), though the
claim says empty-extension attachments are rejected. -/
theorem attachment_js_and_empty_ext_accepted :
    pyLower (py_splitext_ext (clean_filename "script.js")) = ".js" ∧
    ".js" ∈ spec_claimed_dangerous ∧
    attachment_decision "script.js" 1024 = true ∧
    pyLower (py_splitext_ext (clean_filename "README")) = "" ∧
    attachment_decision "README" 1024 = true := by
  refine ⟨rfl, by decide, by decide, rfl, by decide⟩

/-- The claimed dangerous set minus `js` — all the extensions the code
really rejects, via the blacklist (15 of them) or, for `scf` and `lnk`,
via the whitelist. -/
def claimed_dangerous_without_js : List String :=
  [".exe", ".bat", ".cmd", ".com", ".pif", ".scr", ".vbs", ".jar",
   ".msi", ".dll", ".sys", ".scf", ".lnk", ".reg", ".ps1"]

/-- C6 amended: the fetcher rejects every attachment whose (cleaned,
lowercased) extension is in the claimed dangerous set minus `js` —
`exe bat cmd com pif scr vbs jar msi dll sys scf lnk reg ps1` — while a
`.js` attachment and an empty-extension attachment that pass the other
checks are kept. -/
theorem attachment_dangerous_rejected :
    (∀ (filename : String) (size : Nat),
      pyLower (py_splitext_ext (clean_filename filename)) ∈
        claimed_dangerous_without_js →
      attachment_decision filename size = false) ∧
    attachment_decision "script.js" 1024 = true ∧
    attachment_decision "README" 1024 = true := by
  refine ⟨?_, by decide, by decide⟩
  intro filename size h
  unfold attachment_decision
  simp only [claimed_dangerous_without_js, List.mem_cons,
    List.not_mem_nil, or_false] at h
  rcases h with h|h|h|h|h|h|h|h|h|h|h|h|h|h|h <;>
    rw [h] <;> simp [dangerous_extensions, allowed_extensions]

/-- Witness for C6 amended: `virus.exe` is rejected. -/
theorem attachment_dangerous_rejected_witness :
    attachment_decision "virus.exe" 1024 = false :=
  attachment_dangerous_rejected.1 "virus.exe" 1024 (by decide)

/-! ## Forward detection and the forward fields of a fetched record
Embedding of `ForwardDetector.detect_forwarded_email` (lines 94-152),
`ForwardDetector.extract_original_sender` (lines 153-238)
(src/services/forward_detector.py) and the forward-field assembly of
`EmailManager.fetch_new_emails` (src/services/email_manager.py, lines
737-784).  The subject-prefix regexes are alternations of literals and are
embedded directly; the body/HTML `re.search` pattern batteries and the
address parsing/cleaning helpers are external regex machinery passed in as
oracles — every theorem below quantifies over them or instantiates them on
inputs the guards never feed them. -/

/-- `msg.get(name)` over a header list (first match, `""` when absent). -/
def header_get (headers : List (String × String)) (name : String) : String :=
  match headers.find? (fun p => p.1 = name) with
  | some p => p.2
  | none => ""

/-- The `forwarded_headers` list of `ForwardDetector`. -/
def forwarded_headers : List String :=
  ["X-Forwarded-For", "X-Forwarded-Message-Id", "Resent-From",
   "Resent-Sender", "X-Forwarded-To"]

/-- The two case-insensitive subject-prefix patterns
`^(Fwd:|FW:|转发:|Trans:|Forward:|转:|Fw:)` and `^(Re:\s*)?(Fwd:|FW:|转发:)`,
as literal-prefix tests on the lowercased subject. -/
def subject_prefix_hit (subject : String) : Bool :=
  let s := pyLower subject
  (["fwd:", "fw:", "转发:", "trans:", "forward:", "转:"].any
    (fun p => pyStartsWith s p))
  || (let rest := if pyStartsWith s "re:" then
        String.mk ((s.data.drop 3).dropWhile Char.isWhitespace)
      else s
      ["fwd:", "fw:", "转发:"].any (fun p => pyStartsWith rest p))

/-- `detect_forwarded_email(msg, subject, body, body_html)`: four additive
dimensions — forwarded headers (+40), subject prefix (+25), body structure
(+20, only probed on the non-empty one of body/body_html), HTML markers
(+15, only probed on a non-empty body_html).  `bodyPatternHit` and
`htmlPatternHit` stand for the two `re.search` pattern batteries. -/
def detect_forwarded_email (bodyPatternHit htmlPatternHit : String → Bool)
    (headers : List (String × String)) (subject body body_html : String) :
    Bool × Int :=
  let h1 : Bool := forwarded_headers.any
    (fun name => header_get headers name ≠ "")
  let h2 : Bool := subject_prefix_hit subject
  let text_to_check := if body ≠ "" then body else body_html
  let h3 : Bool := if text_to_check ≠ "" then bodyPatternHit text_to_check
    else false
  let h4 : Bool := if body_html ≠ "" then htmlPatternHit body_html else false
  (h1 || h2 || h3 || h4,
    (if h1 then 40 else 0) + (if h2 then 25 else 0) +
    (if h3 then 20 else 0) + (if h4 then 15 else 0))

/-- One harvested entry of the forward chain. -/
structure ChainEntry where
  from_name : Option String
  from_email : Option String
  chain_subject : Option String
  chain_date : Option String
deriving DecidableEq

/-- Python truthiness of an optional string. -/
def truthyOpt : Option String → Bool
  | none => false
  | some s => s ≠ ""

/-- `extract_original_sender(msg, body, body_html)`: Resent-From first
(returning level 1 when it yields an email), then the regex battery over
the non-empty one of body/body_html (`bodyParse`, receiving the current
sender candidate, models lines 183-215 and returns the harvested chain),
then the HTML probes when no email was found, then the validate/clean
helpers, and finally the level rule: chain length when the chain is
non-empty, else 1 when an email was extracted, else 0. -/
def extract_original_sender
    (parseAddr : String → Option String × Option String)
    (bodyParse : Option String → String →
      Option String × Option String × List ChainEntry)
    (htmlExtract : String → Option String × Option String)
    (validateEmail : String → Option String)
    (cleanName : String → String)
    (headers : List (String × String)) (body body_html : String) :
    Option String × Option String × Nat × List ChainEntry :=
  let resent := header_get headers "Resent-From"
  let s1 : Option String × Option String :=
    if resent ≠ "" then parseAddr resent else (none, none)
  if resent ≠ "" ∧ truthyOpt s1.2 then (s1.1, s1.2, 1, [])
  else
    let text := if body ≠ "" then body else body_html
    let s2 : Option String × Option String × List ChainEntry :=
      if text ≠ "" then bodyParse s1.1 text
      else (s1.1, (none : Option String), ([] : List ChainEntry))
    let s3 : Option String × Option String :=
      if ¬ truthyOpt s2.2.1 ∧ body_html ≠ "" then htmlExtract body_html
      else (s2.1, s2.2.1)
    let vEmail : Option String :=
      if truthyOpt s3.2 then validateEmail (s3.2.getD "") else s3.2
    let vName : Option String :=
      if truthyOpt s3.1 then some (cleanName (s3.1.getD "")) else s3.1
    let chain := s2.2.2
    let level : Nat :=
      if chain ≠ [] then chain.length
      else if truthyOpt vEmail then 1 else 0
    (vName, vEmail, level, chain)

/-- The forward-related fields of one fetched email record. -/
structure ForwardFields where
  is_forwarded : Bool
  forward_level : Nat
  original_sender : Option String
  original_sender_email : Option String
deriving DecidableEq

/-- The assembly in `fetch_new_emails`: run the detector; on a hit run the
extractor for the sender and level fields, otherwise zero them all. -/
def fetch_forward_fields (bodyPatternHit htmlPatternHit : String → Bool)
    (parseAddr : String → Option String × Option String)
    (bodyParse : Option String → String →
      Option String × Option String × List ChainEntry)
    (htmlExtract : String → Option String × Option String)
    (validateEmail : String → Option String)
    (cleanName : String → String)
    (headers : List (String × String)) (subject body body_html : String) :
    ForwardFields :=
  if (detect_forwarded_email bodyPatternHit htmlPatternHit headers subject
      body body_html).1 then
    let ex := extract_original_sender parseAddr bodyParse htmlExtract
      validateEmail cleanName headers body body_html
    ⟨true, ex.2.2.1, ex.1, ex.2.1⟩
  else ⟨false, 0, none, none⟩

/-- C8 counterexample: a record fetched from a message with subject
`"Fwd: hello"`, empty body, empty HTML body and no forward headers is
`is_forwarded = true` (the subject prefix fires, +25) but the extractor
finds no original sender in the empty bodies, so `forward_level = 0` —
refuting `forward_level == 0 ⇔ is_forwarded == false`.  All regex oracles
are instantiated concretely; the empty-text guards keep them unused. -/
theorem forward_flag_iff_counterexample :
    (fetch_forward_fields (fun _ => false) (fun _ => false)
      (fun _ => (none, none)) (fun s _ => (s, none, []))
      (fun _ => (none, none)) (fun _ => none) (fun s => s)
      [] "Fwd: hello" "" "") =
      ⟨true, 0, none, none⟩ := by
  rfl

/-- C8 amended: `is_forwarded = false` still forces `forward_level = 0`
(the fetcher zeroes the forward fields on a negative detection), and a
positive `forward_level` only occurs on forwarded records; but a forwarded
record may carry `forward_level = 0` when no original sender could be
extracted, so the claimed equivalence only holds as the implication
`forward_level > 0 → is_forwarded`. -/
theorem fetch_forward_level_zero
    (bodyPatternHit htmlPatternHit : String → Bool)
    (parseAddr : String → Option String × Option String)
    (bodyParse : Option String → String →
      Option String × Option String × List ChainEntry)
    (htmlExtract : String → Option String × Option String)
    (validateEmail : String → Option String)
    (cleanName : String → String)
    (headers : List (String × String)) (subject body body_html : String) :
    ((fetch_forward_fields bodyPatternHit htmlPatternHit parseAddr bodyParse
        htmlExtract validateEmail cleanName headers subject body
        body_html).is_forwarded = false →
      (fetch_forward_fields bodyPatternHit htmlPatternHit parseAddr bodyParse
        htmlExtract validateEmail cleanName headers subject body
        body_html).forward_level = 0) ∧
    (0 < (fetch_forward_fields bodyPatternHit htmlPatternHit parseAddr
        bodyParse htmlExtract validateEmail cleanName headers subject body
        body_html).forward_level →
      (fetch_forward_fields bodyPatternHit htmlPatternHit parseAddr bodyParse
        htmlExtract validateEmail cleanName headers subject body
        body_html).is_forwarded = true) := by
  unfold fetch_forward_fields
  by_cases hd : (detect_forwarded_email bodyPatternHit htmlPatternHit headers
      subject body body_html).1 = true
  · rw [if_pos hd]
    exact ⟨fun hc => Bool.noConfusion hc, fun _ => rfl⟩
  · rw [if_neg hd]
    exact ⟨fun _ => rfl, fun hc => absurd hc (Nat.lt_irrefl 0)⟩

/-- Witness for C8 amended: a plain message with no forward signal has
`forward_level = 0` via the first implication. -/
theorem fetch_forward_level_zero_witness :
    (fetch_forward_fields (fun _ => false) (fun _ => false)
      (fun _ => (none, none)) (fun s _ => (s, none, []))
      (fun _ => (none, none)) (fun _ => none) (fun s => s)
      [] "weekly report" "hi" "").forward_level = 0 :=
  (fetch_forward_level_zero (fun _ => false) (fun _ => false)
    (fun _ => (none, none)) (fun s _ => (s, none, []))
    (fun _ => (none, none)) (fun _ => none) (fun s => s)
    [] "weekly report" "hi" "").1 (by rfl)

/-! ## Batch summarization
Embedding of `AIClient._generate_fallback_summary` (lines 230-245),
`AIClient.summarize_email` (lines 248-280) and `AIClient.batch_summarize`
(lines 282-320) of src/services/ai_client.py, plus the wrapper semantics of
`TranslationService.translate_to_chinese`
(src/services/translation_service.py, lines 267-290).  The provider HTTP
call (GLM or OpenAI, post-processed) is the oracle `aiCall` — `none` for
an unsupported provider / failed call, `some s` for a response (`s` may be
empty after post-processing); the translation API is the oracle `trans`. -/

/-- An email dict as `batch_summarize` reads and mutates it. -/
structure AiEmail where
  subject : String
  sender : String
  body : String
  ai_summary : Option String
  processed : Bool
deriving DecidableEq

/-- Python `s.split(c)[0]`. -/
def split_head (c : Char) (s : String) : String :=
  String.mk (s.data.takeWhile (fun x => x ≠ c))

/-- `_generate_fallback_summary(email_data)`: deterministic summary from
sender name, subject and a 100-character body preview. -/
def generate_fallback_summary (e : AiEmail) : String :=
  let sender_name := if pyIn "<" e.sender then pyStrip (split_head '<' e.sender)
    else split_head '@' e.sender
  let body_preview := if 100 < e.body.data.length then pySlice e.body 100 ++ "..."
    else e.body
  if pyStrip e.body = "" then "来自 " ++ sender_name ++ " 的邮件：" ++ e.subject
  else "来自 " ++ sender_name ++ " 的邮件：" ++ e.subject ++ "。内容摘要：" ++
    body_preview

/-- `translate_to_chinese(text)`: a truthy API result is returned,
anything else (failure, empty, non-English input handled inside the
oracle) falls back to the input text. -/
def translate_to_chinese (trans : String → Option String)
    (text : String) : String :=
  match trans text with
  | some t => if t ≠ "" then t else text
  | none => text

/-- `summarize_email(email_data)`: provider call, fallback on a falsy
result, then optional auto-translation of the summary. -/
def summarize_email (aiCall : AiEmail → Option String)
    (trans : String → Option String) (translationAvailable : Bool)
    (e : AiEmail) : String :=
  let s0 := match aiCall e with | some s => s | none => ""
  let s1 := if s0 = "" then generate_fallback_summary e else s0
  if s1 ≠ "" ∧ translationAvailable then
    let t := translate_to_chinese trans s1
    if t ≠ s1 then t else s1
  else s1

/-- `batch_summarize(emails)`: walk the list in order; a blank email gets
the fixed text `邮件内容为空`, every other email gets `summarize_email`;
every element is marked `processed` and appended. -/
def batch_summarize (aiCall : AiEmail → Option String)
    (trans : String → Option String) (translationAvailable : Bool)
    (emails : List AiEmail) : List AiEmail :=
  emails.map (fun e =>
    if pyStrip e.body = "" ∧ pyStrip e.subject = "" then
      { e with ai_summary := some "邮件内容为空", processed := true }
    else
      { e with
        ai_summary := some (summarize_email aiCall trans translationAvailable e),
        processed := true })

theorem generate_fallback_summary_ne_empty (e : AiEmail) :
    generate_fallback_summary e ≠ "" := by
  unfold generate_fallback_summary
  by_cases h : pyStrip e.body = ""
  · rw [if_pos h]
    intro hc
    have hlen := congrArg String.length hc
    simp [String.length_append] at hlen
    exact absurd hlen.1.1.1 (by decide)
  · rw [if_neg h]
    intro hc
    have hlen := congrArg String.length hc
    simp [String.length_append] at hlen
    exact absurd hlen.1.1.1.1.1 (by decide)

theorem summarize_email_ne_empty (aiCall : AiEmail → Option String)
    (trans : String → Option String) (translationAvailable : Bool)
    (e : AiEmail) :
    summarize_email aiCall trans translationAvailable e ≠ "" := by
  unfold summarize_email
  set s0 := (match aiCall e with | some s => s | none => "") with hs0
  have hs1 : (if s0 = "" then generate_fallback_summary e else s0) ≠ "" := by
    by_cases h0 : s0 = ""
    · rw [if_pos h0]; exact generate_fallback_summary_ne_empty e
    · rw [if_neg h0]; exact h0
  set s1 := if s0 = "" then generate_fallback_summary e else s0 with hs1def
  by_cases hc : s1 ≠ "" ∧ translationAvailable = true
  · rw [if_pos hc]
    unfold translate_to_chinese
    cases htr : trans s1 with
    | none => simpa [htr] using hs1
    | some t =>
      by_cases ht : t = ""
      · simpa [htr, ht] using hs1
      · by_cases hts : t = s1
        · simpa [htr, ht, hts] using hs1
        · simp [htr, ht, hts]
  · rw [if_neg hc]
    exact hs1

/-- C10. `batch_summarize` returns a list of the same length, element for
element in input order (subject, sender and body carried over unchanged);
every output email is `processed` with a non-empty `ai_summary` — the
fixed text `邮件内容为空` when both body and subject are blank, otherwise
the `summarize_email` result, which falls back to the deterministic
`_generate_fallback_summary` text when the provider call fails and no
translation applies. -/
theorem batch_summarize_spec (aiCall : AiEmail → Option String)
    (trans : String → Option String) (translationAvailable : Bool)
    (emails : List AiEmail) :
    (batch_summarize aiCall trans translationAvailable emails).length =
      emails.length ∧
    List.Forall₂ (fun e r =>
      r.subject = e.subject ∧ r.sender = e.sender ∧ r.body = e.body ∧
      r.processed = true ∧
      ∃ s, r.ai_summary = some s ∧ s ≠ "" ∧
        ((pyStrip e.body = "" ∧ pyStrip e.subject = "") → s = "邮件内容为空") ∧
        (¬ (pyStrip e.body = "" ∧ pyStrip e.subject = "") →
          s = summarize_email aiCall trans translationAvailable e))
      emails (batch_summarize aiCall trans translationAvailable emails) ∧
    (∀ e : AiEmail, aiCall e = none →
      summarize_email aiCall trans false e =
        generate_fallback_summary e) := by
  refine ⟨by simp [batch_summarize], ?_, ?_⟩
  · unfold batch_summarize
    rw [List.forall₂_map_right_iff]
    rw [List.forall₂_same]
    intro e _
    by_cases hblank : pyStrip e.body = "" ∧ pyStrip e.subject = ""
    · rw [if_pos hblank]
      exact ⟨rfl, rfl, rfl, rfl,
        "邮件内容为空", rfl, by decide, fun _ => rfl,
        fun hc => absurd hblank hc⟩
    · rw [if_neg hblank]
      exact ⟨rfl, rfl, rfl, rfl,
        summarize_email aiCall trans translationAvailable e, rfl,
        summarize_email_ne_empty aiCall trans translationAvailable e,
        fun hb => absurd hb hblank, fun _ => rfl⟩
  · intro e hfail
    unfold summarize_email
    rw [hfail]
    simp

/-- Witness for C10's conjuncts with hypotheses at a concrete input: a
failing provider call on a blank-body email yields exactly the
deterministic fallback text. -/
theorem batch_summarize_spec_witness :
    summarize_email (fun _ => none) (fun _ => none) false
        ⟨"Hello", "alice@x.com", "", none, false⟩ =
      generate_fallback_summary ⟨"Hello", "alice@x.com", "", none, false⟩ :=
  (batch_summarize_spec (fun _ => none) (fun _ => none) false []).2.2
    ⟨"Hello", "alice@x.com", "", none, false⟩ rfl

end MailMind
